import Mathlib

/- Shallow embedding of the MCP sandbox tool bridge: client registry
   (client.ts), schema fetcher (converter with raw interception),
   binding input coercion (executor), and the executor runner with
   log capture (executor-utils.ts). -/

namespace Sandbox

/-- JavaScript-like runtime values: null, undefined, booleans, (integral)
numbers, strings, arrays and plain objects (ordered field lists, as JS
objects preserve insertion order). -/
inductive JSValue where
  | vNull
  | vUndefined
  | vBool (b : Bool)
  | vNum (n : Int)
  | vStr (s : String)
  | vArr (elems : List JSValue)
  | vObj (fields : List (String × JSValue))

open JSValue

/-- JS truthiness: null, undefined, false, 0 and the empty string are falsy;
arrays and objects are always truthy. -/
def jsTruthy : JSValue → Bool
  | vNull => false
  | vUndefined => false
  | vBool b => b
  | vNum n => decide (n ≠ 0)
  | vStr s => decide (s ≠ "")
  | vArr _ => true
  | vObj _ => true

/-- JS typeof, restricted to the values modelled: typeof null is "object",
arrays and objects are "object". -/
def typeofOf : JSValue → String
  | vNull => "object"
  | vUndefined => "undefined"
  | vBool _ => "boolean"
  | vNum _ => "number"
  | vStr _ => "string"
  | vArr _ => "object"
  | vObj _ => "object"

/-- First-occurrence lookup in an ordered field list (JS object property
read; field lists built by the operations here keep keys unique). -/
def lookupField : List (String × JSValue) → String → JSValue
  | [], _ => vUndefined
  | (k, v) :: rest, key => if k = key then v else lookupField rest key

/-- JS object-literal key override: replace the value in place when the key
exists (JS keeps the original position), append otherwise. -/
def setField : List (String × JSValue) → String → JSValue → List (String × JSValue)
  | [], key, v => [(key, v)]
  | (k, w) :: rest, key, v =>
      if k = key then (k, v) :: rest else (k, w) :: setField rest key v

/-- JS property access `v[key]` for the cases the embedded code exercises:
object fields, and the length property of arrays and strings; every other
read yields undefined. -/
def getProp : JSValue → String → JSValue
  | vObj fl, key => lookupField fl key
  | vArr l, key => if key = "length" then vNum (l.length : Int) else vUndefined
  | vStr s, key => if key = "length" then vNum (s.length : Int) else vUndefined
  | _, _ => vUndefined

/-- Index fields created when spreading an array: ("0", v0), ("1", v1), ... -/
def indexArr (i : Nat) : List JSValue → List (String × JSValue)
  | [] => []
  | v :: vs => (toString i, v) :: indexArr (i + 1) vs

/-- Index fields created when spreading a string: one single-character
string per position. -/
def indexStr (i : Nat) : List Char → List (String × JSValue)
  | [] => []
  | c :: cs => (toString i, vStr (String.singleton c)) :: indexStr (i + 1) cs

/-- Own enumerable properties taken by JS object spread: objects give their
fields, arrays and strings their indexed elements, primitives nothing. -/
def spreadFields : JSValue → List (String × JSValue)
  | vObj fl => fl
  | vArr l => indexArr 0 l
  | vStr s => indexStr 0 s.data
  | _ => []

/-- JS short-circuit `a || b` specialised to a value with a default. -/
def jsOr (v d : JSValue) : JSValue := if jsTruthy v then v else d

/-- The safe default object schema substituted for an absent schema. -/
def defaultSchema : JSValue :=
  vObj [("type", vStr "object"), ("properties", vObj []), ("required", vArr [])]

/-- normalizeSchema from the converter (src/unnamed/part_001 lines 222-237):
falsy input gives the default object schema; input without a truthy type is
rebuilt by spreading it and overriding type, properties and required;
input with a truthy type is returned unchanged. -/
def normalizeSchema (schema : JSValue) : JSValue :=
  if jsTruthy schema = false then defaultSchema
  else if jsTruthy (getProp schema "type") = false then
    vObj (setField (setField (setField (spreadFields schema)
      "type" (vStr "object"))
      "properties" (jsOr (getProp schema "properties") (vObj [])))
      "required" (jsOr (getProp schema "required") (vArr [])))
  else schema

/-- Decide whether a value is exactly null (the `input !== null` test). -/
def isNull : JSValue → Bool
  | vNull => true
  | _ => false

mutual

/-- JS String(v) conversion: arrays join their elements with commas (null
and undefined elements become the empty string), objects render as
"[object Object]". -/
def jsToString : JSValue → String
  | vNull => "null"
  | vUndefined => "undefined"
  | vBool true => "true"
  | vBool false => "false"
  | vNum n => toString n
  | vStr s => s
  | vArr l => String.intercalate "," (jsToStringElems l)
  | vObj _ => "[object Object]"

/-- Element renderings used by Array.prototype.toString. -/
def jsToStringElems : List JSValue → List String
  | [] => []
  | vNull :: vs => "" :: jsToStringElems vs
  | vUndefined :: vs => "" :: jsToStringElems vs
  | v :: vs => jsToString v :: jsToStringElems vs

end

/-- JS array indexing `v[i]` (also string indexing and numeric-key object
reads), as used for required[0]. -/
def jsIndex (v : JSValue) (i : Nat) : JSValue :=
  match v with
  | vArr l => (l[i]?).getD vUndefined
  | vStr s => if h : i < s.data.length then vStr (String.singleton (s.data.get ⟨i, h⟩)) else vUndefined
  | vObj fl => lookupField fl (toString i)
  | _ => vUndefined

/-- Input coercion of a generated binding (src/unnamed/part_000 lines
82-97): a non-null value whose typeof is not "object", called against a
truthy schema whose required list has length exactly one, is wrapped as an
object under that single required name; every other input is forwarded
unchanged. -/
def processedInput (inputSchema input : JSValue) : JSValue :=
  if isNull input = false ∧ typeofOf input ≠ "object" ∧ jsTruthy inputSchema = true then
    let required := jsOr (getProp inputSchema "required") (vArr [])
    match getProp required "length" with
    | vNum n =>
        if n = 1 then vObj [(jsToString (jsIndex required 0), input)] else input
    | _ => input
  else input

/- ============================================================
   Connection registry (client.ts, src/unnamed/part_000 lines 141-224)
   ============================================================ -/

/-- A provider launch configuration as parsed from the environment. -/
structure MCPServerConfig where
  command : String
  args : List String

/-- The module-level registries of client.ts. Clients and transports are
identified by the numeric handles they were created with; nextId supplies
fresh handles; launches records, in order, each connection establishment
(transport creation plus handshake) performed. -/
structure ClientState where
  clientRegistry : List (String × Nat)
  transportRegistry : List (String × Nat)
  nextId : Nat
  launches : List String

/-- Association-list lookup modelling Map.get / Map.has. -/
def alookup : List (String × Nat) → String → Option Nat
  | [], _ => none
  | (k, v) :: rest, key => if k = key then some v else alookup rest key

/-- Map.set: replace in place when the key exists, append otherwise. -/
def aset : List (String × Nat) → String → Nat → List (String × Nat)
  | [], key, v => [(key, v)]
  | (k, w) :: rest, key, v =>
      if k = key then (k, v) :: rest else (k, w) :: aset rest key v

/-- Map.delete: remove the entry with the given key, if any. -/
def aremove : List (String × Nat) → String → List (String × Nat)
  | [], _ => []
  | (k, w) :: rest, key => if k = key then rest else (k, w) :: aremove rest key

/-- Number of entries stored under a key. -/
def keyCount (l : List (String × Nat)) (key : String) : Nat :=
  (l.filter fun p => p.1 = key).length

/-- getOrCreateClient (part_000 lines 152-173): return the registered
client when one exists for the server name; otherwise create a transport
and client, connect (connectOk says whether the handshake succeeds; a
failure propagates and registers nothing), and register both handles under
the server name. The launches log records the establishment attempt. -/
def getOrCreateClient (connectOk : Bool) (serverName : String)
    (_config : MCPServerConfig) (st : ClientState) :
    Except String (Nat × ClientState) :=
  match alookup st.clientRegistry serverName with
  | some cid => .ok (cid, st)
  | none =>
    let tid := st.nextId
    let st1 : ClientState :=
      { st with nextId := tid + 1, launches := st.launches ++ [serverName] }
    if connectOk then
      .ok (tid, { st1 with
        clientRegistry := aset st1.clientRegistry serverName tid,
        transportRegistry := aset st1.transportRegistry serverName tid })
    else
      .error ("connect failed: " ++ serverName)

/-- One step of closeAllConnections over a registered (name, transport)
entry: the close is always attempted (recorded in the attempt list); only
when it succeeds are the entries deleted from both registries — a close
that raises is caught, leaving the entry registered (part_000 lines
210-220: the deletes follow the awaited close inside the try). -/
def closeStep (closeOk : Nat → Bool) (acc : ClientState × List Nat)
    (entry : String × Nat) : ClientState × List Nat :=
  let attempted := acc.2 ++ [entry.2]
  if closeOk entry.2 then
    ({ acc.1 with
        clientRegistry := aremove acc.1.clientRegistry entry.1,
        transportRegistry := aremove acc.1.transportRegistry entry.1 },
     attempted)
  else
    (acc.1, attempted)

/-- closeAllConnections (part_000 lines 210-220): iterate the registered
transports (the loop only ever deletes the entry it is visiting, so
iterating the initial snapshot is equivalent to iterating the live map);
every error is caught, so the function itself never raises. Returns the
final registries and the transports whose close was attempted, in order. -/
def closeAllConnections (closeOk : Nat → Bool) (st : ClientState) :
    ClientState × List Nat :=
  st.transportRegistry.foldl (closeStep closeOk) (st, [])

/-- Structured failure conditions of callMCPTool, carrying the data the
source interpolates into its error messages. -/
inductive MCPError where
  | invalidIdentifier (toolName : String)
  | configNotFound (serverName : String)
  | configParseFailed (raw : String)
  | connectFailed (serverName : String)
  | remoteFailed (msg : String)
deriving DecidableEq

/-- The error message strings of the source, one per condition. -/
def renderMCPError : MCPError → String
  | .invalidIdentifier toolName =>
      "Invalid tool name format: " ++ toolName ++
      ". Expected format: \"servername__toolname\""
  | .configNotFound serverName =>
      "MCP server configuration not found for: " ++ serverName ++
      ". Expected environment variable: MCP_SERVER_" ++ serverName.toUpper
  | .configParseFailed raw => "Unexpected token in JSON: " ++ raw
  | .connectFailed serverName => "connect failed: " ++ serverName
  | .remoteFailed msg => msg

/-- The ambient process state and external behaviour callMCPTool runs
against: the environment map, the JSON.parse outcome on a raw
configuration string (none models a parse exception), whether the
handshake succeeds, and the remote callTool outcome per (server, tool,
arguments) — an error models the remote raising, an ok value is the
result object whose content field is returned. -/
structure MCPWorld where
  env : String → Option String
  parseConfig : String → Option MCPServerConfig
  connectOk : Bool
  remote : String → String → JSValue → Except String JSValue

/-- The `!serverConfigJson` test: the variable is missing or empty. -/
def envMissing : Option String → Bool
  | none => true
  | some s => decide (s = "")

/-- JS String.prototype.split with the fixed two-character separator "__",
over character lists: scanning left to right, each occurrence of the
separator ends the current piece (so leading, trailing and adjacent
separators produce empty pieces, as in JS). -/
def splitDunder : List Char → List (List Char)
  | [] => [[]]
  | '_' :: '_' :: rest => [] :: splitDunder rest
  | c :: rest =>
    match splitDunder rest with
    | [] => [[c]]
    | g :: gs => (c :: g) :: gs

/-- toolName.split("__") as a list of strings. -/
def jsSplitDunder (s : String) : List String :=
  (splitDunder s.data).map fun l => String.mk l

/-- JS String.prototype.toUpperCase restricted to ASCII, which is all the
provider names use. -/
def jsToUpper (s : String) : String :=
  String.mk (s.data.map Char.toUpper)

/-- The body of callMCPTool once the identifier has split into a server
name and a tool name (part_000 lines 189-207): read the configuration
variable MCP_SERVER_ + uppercased server name — missing or empty raises
ConfigurationNotFound — parse it, obtain the client through the registry
and return the content field of the remote result unmodified. -/
def callMCPToolBody (w : MCPWorld) (serverName actualToolName : String)
    (input : JSValue) (st : ClientState) : Except MCPError (JSValue × ClientState) :=
  match w.env ("MCP_SERVER_" ++ jsToUpper serverName) with
  | none => .error (.configNotFound serverName)
  | some raw =>
    if raw = "" then .error (.configNotFound serverName)
    else
      match w.parseConfig raw with
      | none => .error (.configParseFailed raw)
      | some cfg =>
        match getOrCreateClient w.connectOk serverName cfg st with
        | .error _ => .error (.connectFailed serverName)
        | .ok (_client, st1) =>
          match w.remote serverName actualToolName input with
          | .error msg => .error (.remoteFailed msg)
          | .ok result => .ok (getProp result "content", st1)

/-- callMCPTool (part_000 lines 181-208): split the combined identifier on
"__"; any part count other than two raises InvalidIdentifier (emptiness of
the parts is not checked); otherwise proceed with the two parts. -/
def callMCPTool (w : MCPWorld) (toolName : String) (input : JSValue)
    (st : ClientState) : Except MCPError (JSValue × ClientState) :=
  match jsSplitDunder toolName with
  | [serverName, actualToolName] => callMCPToolBody w serverName actualToolName input st
  | _ => .error (.invalidIdentifier toolName)

/- ============================================================
   Schema fetcher (converter with raw interception,
   src/unnamed/part_001 lines 218-319)
   ============================================================ -/

/-- A tool entry as it arrives from a provider: name, optional description
and possibly incomplete schemas (vUndefined models an absent field). -/
structure RawTool where
  name : String
  description : Option String
  inputSchema : JSValue
  outputSchema : JSValue

/-- A tool entry after fetch-time normalization. -/
structure NormalizedTool where
  name : String
  description : Option String
  inputSchema : JSValue
  outputSchema : JSValue

/-- The per-tool mapping of fetchToolSchemas (part_001 lines 296-301): the
input schema is always normalized, the output schema only when truthy,
staying undefined otherwise. -/
def normalizeTool (t : RawTool) : NormalizedTool :=
  { name := t.name
    description := t.description
    inputSchema := normalizeSchema t.inputSchema
    outputSchema :=
      if jsTruthy t.outputSchema then normalizeSchema t.outputSchema else vUndefined }

/-- Externally observable behaviour of one provider during a fetch:
whether connect succeeds, the listTools outcome, what the onmessage
interception captured (none when no truthy tools payload was seen on the
wire), and whether closing the transport succeeds. -/
structure ProviderBehavior where
  connectOk : Bool
  listResult : Except String (List RawTool)
  intercepted : Option (List RawTool)
  closeOk : Bool

/-- The rawToolsData left after the listTools attempt (part_001 lines
280-292): a successful response replaces whatever was intercepted; on a
rejected response the intercepted payload is the fallback, and with
nothing intercepted the fetch for this provider fails. -/
def rawToolsOf (b : ProviderBehavior) : Option (List RawTool) :=
  match b.listResult with
  | .ok ts => some ts
  | .error _ => b.intercepted

/-- A provider fetch attempt that completes without raising. -/
def provOk (b : ProviderBehavior) : Bool :=
  b.connectOk && (rawToolsOf b).isSome && b.closeOk

/-- Connection-level events of a fetch, used to state ordering and
guaranteed-close properties. -/
inductive FetchEvent where
  | connectAttempt (server : String)
  | closeAttempt (server : String)
deriving DecidableEq

/-- The fetch attempt for one provider (part_001 lines 252-315). The catch
block always attempts transport.close before rethrowing, so every path
emits a closeAttempt after its connectAttempt; when the close on the
success path itself raises, the catch attempts it once more and rethrows
the close failure. -/
def fetchOne (serverName : String) (b : ProviderBehavior) :
    Except String (List NormalizedTool) × List FetchEvent :=
  if b.connectOk then
    match rawToolsOf b with
    | some ts =>
        if b.closeOk then
          (.ok (ts.map normalizeTool),
           [.connectAttempt serverName, .closeAttempt serverName])
        else
          (.error ("close failed: " ++ serverName),
           [.connectAttempt serverName, .closeAttempt serverName,
            .closeAttempt serverName])
    | none =>
        (.error ("list tools failed: " ++ serverName),
         [.connectAttempt serverName, .closeAttempt serverName])
  else
    (.error ("connect failed: " ++ serverName),
     [.connectAttempt serverName, .closeAttempt serverName])

/-- fetchToolSchemas (part_001 lines 245-319): providers are processed
strictly sequentially in configuration order; the first failure is
returned as the overall outcome, discarding any partial results and never
reaching the remaining providers. -/
def fetchToolSchemas (providers : List (String × ProviderBehavior)) :
    Except String (List (String × List NormalizedTool)) × List FetchEvent :=
  match providers with
  | [] => (.ok [], [])
  | (n, b) :: rest =>
    match fetchOne n b with
    | (.ok ts, ev) =>
      match fetchToolSchemas rest with
      | (.ok l, evs) => (.ok ((n, ts) :: l), ev ++ evs)
      | (.error e, evs) => (.error e, ev ++ evs)
    | (.error e, ev) => (.error e, ev)

/-- The per-provider event block of a clean fetch, chained in
configuration order. -/
def evChain (providers : List (String × ProviderBehavior)) : List FetchEvent :=
  providers.foldr
    (fun p acc => FetchEvent.connectAttempt p.1 :: FetchEvent.closeAttempt p.1 :: acc) []

/-- The server a fetch event concerns. -/
def evServer : FetchEvent → String
  | .connectAttempt s => s
  | .closeAttempt s => s

/- ============================================================
   Log capture and executor runner (executor-utils.ts)
   ============================================================ -/

/-- One intercepted console call during a capture session. -/
inductive ConsoleCall where
  | log (args : List JSValue)
  | error (args : List JSValue)
  | warn (args : List JSValue)

/-- Lowercase hexadecimal digit. -/
def hexDigitChar (n : Nat) : Char :=
  if n < 10 then Char.ofNat (48 + n) else Char.ofNat (87 + n % 16)

/-- JSON string escaping as performed by JSON.stringify: quote, backslash,
the named control escapes, and \u00xx for the remaining control
characters; other characters pass through. -/
def jsonEscChar (c : Char) : String :=
  if c = '"' then "\\\""
  else if c = '\\' then "\\\\"
  else if c = '\n' then "\\n"
  else if c = '\r' then "\\r"
  else if c = '\t' then "\\t"
  else if c.toNat = 8 then "\\b"
  else if c.toNat = 12 then "\\f"
  else if c.toNat < 32 then
    "\\u00" ++ String.singleton (hexDigitChar (c.toNat / 16)) ++
      String.singleton (hexDigitChar (c.toNat % 16))
  else String.singleton c

/-- A JSON string literal for the given text. -/
def jsonQuote (s : String) : String :=
  "\"" ++ String.join (s.data.map jsonEscChar) ++ "\""

mutual

/-- JSON.stringify on the modelled values. An undefined in array position
serializes as null and undefined-valued object fields are dropped, as in
JS; the capture code only ever applies this to values whose typeof is
"object", so a top-level undefined never reaches it. -/
def jsonStringify : JSValue → String
  | vNull => "null"
  | vUndefined => "null"
  | vBool true => "true"
  | vBool false => "false"
  | vNum n => toString n
  | vStr s => jsonQuote s
  | vArr l => "[" ++ String.intercalate "," (jsonElems l) ++ "]"
  | vObj fl => "\x7b" ++ String.intercalate "," (jsonFields fl) ++ "\x7d"

/-- Serialized array elements. -/
def jsonElems : List JSValue → List String
  | [] => []
  | v :: vs => jsonStringify v :: jsonElems vs

/-- Serialized object fields; undefined-valued fields are skipped. -/
def jsonFields : List (String × JSValue) → List String
  | [] => []
  | (_, vUndefined) :: rest => jsonFields rest
  | (k, v) :: rest => (jsonQuote k ++ ":" ++ jsonStringify v) :: jsonFields rest

end

/-- Argument rendering shared by the three intercepted channels
(executor-utils.ts lines 26-42): JSON.stringify when typeof is "object",
String otherwise. -/
def renderArg (v : JSValue) : String :=
  if typeofOf v = "object" then jsonStringify v else jsToString v

/-- The space-joined rendering of one console call argument list. -/
def renderArgs (args : List JSValue) : String :=
  String.intercalate " " (args.map renderArg)

/-- The single line a captured console call appends to the buffer: error
and warn carry their channel tags, log lines carry none. -/
def captureLine : ConsoleCall → String
  | .log args => renderArgs args
  | .error args => "[ERROR] " ++ renderArgs args
  | .warn args => "[WARN] " ++ renderArgs args

/-- A capture session over a sequence of console calls: each call pushes
its line onto the shared buffer, in call order. -/
def runCapture (calls : List ConsoleCall) : List String :=
  calls.foldl (fun buf c => buf ++ [captureLine c]) []

/-- A raised JS condition: a structured Error with its message, or an
arbitrary thrown value. -/
inductive JSError where
  | errObj (message : String)
  | nonErr (v : JSValue)

/-- The string stored in the result envelope for a raised condition:
error.message for Error instances, String(error) otherwise
(executor-utils.ts line 90). -/
def jsErrorMessage : JSError → String
  | .errObj message => message
  | .nonErr v => jsToString v

/-- The result envelope of executor-utils.ts: error as an optional field
(present exactly when the key is emitted). -/
structure ExecutionResult where
  result : JSValue
  logs : List String
  exitCode : Nat
  error : Option String

/-- What the user code unit did when invoked: the console calls it made
while the capture session was active, and its outcome. -/
structure HandlerRun where
  calls : List ConsoleCall
  outcome : Except JSError JSValue

/-- Observable events of one executor process run. -/
inductive ExEvent where
  | stderrLine (s : String)
  | captureStart
  | captureStop
  | handlerInvoked (code : String)
  | stdoutEnvelope (r : ExecutionResult)
  | closeAll
  | exitProc (code : Nat)

/-- The usage message printed when the code argument is missing. -/
def usageMessage : String := "Usage: tsx <executor_script> '<code>'"

/-- The trace of the missing-argument path: usage on stderr, then exit 1. -/
def usageTrace : List ExEvent :=
  [ExEvent.stderrLine usageMessage, ExEvent.exitProc 1]

/-- runExecutor (executor-utils.ts lines 59-102) as its event trace. The
code argument is tested with JS truthiness, so an empty string takes the
usage path exactly like an absent argument. On both the success and the
failure path the process terminates through process.exit inside the
try/catch; in Node an explicit process.exit ends the process immediately,
so neither the finally block (with its closeAllConnections call) nor the
beforeExit hook of client.ts ever runs — the trace ends at the first
exitProc and never contains closeAll. -/
def runExecutor (argv2 : Option String) (run : HandlerRun) : List ExEvent :=
  match argv2 with
  | none => usageTrace
  | some code =>
    if code = "" then usageTrace
    else
      ExEvent.captureStart :: ExEvent.handlerInvoked code ::
      match run.outcome with
      | .ok r =>
          [ExEvent.captureStop,
           ExEvent.stdoutEnvelope
             { result := r, logs := runCapture run.calls, exitCode := 0, error := none },
           ExEvent.exitProc 0]
      | .error e =>
          [ExEvent.captureStop,
           ExEvent.stdoutEnvelope
             { result := vNull, logs := runCapture run.calls, exitCode := 1,
               error := some (jsErrorMessage e) },
           ExEvent.exitProc 1]

/-- Number of closeAll events in a trace. -/
def closeAllCount (tr : List ExEvent) : Nat :=
  (tr.filter fun e => match e with | ExEvent.closeAll => true | _ => false).length

/-- The result envelopes written to standard output during a trace. -/
def envelopes (tr : List ExEvent) : List ExecutionResult :=
  tr.filterMap fun e => match e with | ExEvent.stdoutEnvelope r => some r | _ => none

/- Concrete instances used to evaluate the verified statements. -/

/-- The registries at process start: empty. -/
def emptyClientState : ClientState :=
  { clientRegistry := [], transportRegistry := [], nextId := 0, launches := [] }

/-- The registries right after a first connection to provider "srv". -/
def demoRegisteredState : ClientState :=
  { clientRegistry := [("srv", 0)], transportRegistry := [("srv", 0)],
    nextId := 1, launches := ["srv"] }

/-- A process environment holding exactly one provider configuration,
under MCP_SERVER_SRV, whose parse succeeds, whose handshake succeeds and
whose remote calls answer with a fixed content payload. -/
def demoWorld : MCPWorld :=
  { env := fun key => if key = "MCP_SERVER_SRV" then some "cfgjson" else none
    parseConfig := fun _ => some { command := "node", args := ["server.js"] }
    connectOk := true
    remote := fun _ _ _ => .ok (vObj [("content", vArr [vStr "hi"])]) }

/-- A process environment with no provider configuration at all. -/
def noConfigWorld : MCPWorld :=
  { env := fun _ => none
    parseConfig := fun _ => none
    connectOk := false
    remote := fun _ _ _ => .error "down" }

/-- A provider whose fetch completes cleanly with one advertised tool. -/
def okProvider : ProviderBehavior :=
  { connectOk := true
    listResult := .ok [{ name := "get_user", description := some "Get a user"
                         inputSchema := vUndefined, outputSchema := vUndefined }]
    intercepted := none
    closeOk := true }

/-- A provider whose listTools rejects with nothing intercepted. -/
def badProvider : ProviderBehavior :=
  { connectOk := true, listResult := .error "boom", intercepted := none, closeOk := true }

/-- A tiny capture session used to evaluate the capture statement. -/
def sampleCalls : List ConsoleCall :=
  [ConsoleCall.error [vObj [("a", vNum 1)]], ConsoleCall.warn [vStr "w"],
   ConsoleCall.log [vStr "hi", vNum 3]]

/- ============================================================
   Helper lemmas
   ============================================================ -/

theorem lookupField_setField (fl : List (String × JSValue)) (key : String)
    (v : JSValue) (q : String) :
    lookupField (setField fl key v) q = if q = key then v else lookupField fl q := by
  induction fl with
  | nil =>
    simp only [setField]
    by_cases h : q = key
    · subst h; simp [lookupField]
    · have h2 : key ≠ q := fun hk => h hk.symm
      simp [lookupField, h, h2]
  | cons p rest ih =>
    obtain ⟨k0, w⟩ := p
    by_cases h0 : k0 = key
    · subst h0
      simp only [setField, if_pos rfl]
      by_cases h : q = k0
      · subst h; simp [lookupField]
      · have h2 : k0 ≠ q := fun hk => h hk.symm
        simp [lookupField, h, h2]
    · simp only [setField, if_neg h0]
      by_cases h : k0 = q
      · subst h
        simp [lookupField, h0]
      · simp [lookupField, h, ih]

theorem jsTruthy_normalizeSchema (s : JSValue) : jsTruthy (normalizeSchema s) = true := by
  unfold normalizeSchema
  split_ifs with h1 h2
  · rfl
  · rfl
  · simpa using h1

theorem getProp_nonObj_eq_undefined (s : JSValue) (key : String)
    (hobj : ∀ fl, s ≠ vObj fl) (hlen : key ≠ "length") :
    getProp s key = vUndefined := by
  cases s <;> simp [getProp, hlen]
  case vObj fl => exact absurd rfl (hobj fl)

/- ============================================================
   C5 — schema normalization
   ============================================================ -/

/-- C5 (amended): normalizeSchema yields the exact default object schema
for a falsy input; for an input whose type field is not truthy it yields
an object whose type is "object", whose properties and required fields are
the input fields when truthy and the empty defaults otherwise, preserving
every other field of an object input; an input with a truthy type is
returned unchanged, without any backfill. -/
theorem c5_normalize_schema (s : JSValue) :
    (jsTruthy s = false → normalizeSchema s = defaultSchema) ∧
    (jsTruthy (getProp s "type") = false →
      getProp (normalizeSchema s) "type" = vStr "object" ∧
      getProp (normalizeSchema s) "properties" = jsOr (getProp s "properties") (vObj []) ∧
      getProp (normalizeSchema s) "required" = jsOr (getProp s "required") (vArr []) ∧
      (∀ fl key, s = vObj fl → key ≠ "type" → key ≠ "properties" → key ≠ "required" →
        getProp (normalizeSchema s) key = getProp s key)) ∧
    (jsTruthy (getProp s "type") = true → normalizeSchema s = s) := by
  refine ⟨?_, ?_, ?_⟩
  · intro hf; unfold normalizeSchema; rw [if_pos hf]
  · intro ht
    by_cases hf : jsTruthy s = false
    · have hd : normalizeSchema s = defaultSchema := by
        unfold normalizeSchema; rw [if_pos hf]
      have hobj : ∀ fl, s ≠ vObj fl := by
        intro fl he; subst he; simp [jsTruthy] at hf
      have hp : getProp s "properties" = vUndefined :=
        getProp_nonObj_eq_undefined s "properties" hobj (by decide)
      have hr : getProp s "required" = vUndefined :=
        getProp_nonObj_eq_undefined s "required" hobj (by decide)
      refine ⟨by rw [hd]; rfl, ?_, ?_, ?_⟩
      · rw [hd, hp]; rfl
      · rw [hd, hr]; rfl
      · intro fl key hs _ _ _; exact absurd hs (hobj fl)
    · have hn : normalizeSchema s = vObj (setField (setField (setField (spreadFields s)
          "type" (vStr "object"))
          "properties" (jsOr (getProp s "properties") (vObj [])))
          "required" (jsOr (getProp s "required") (vArr []))) := by
        unfold normalizeSchema; rw [if_neg hf, if_pos ht]
      refine ⟨?_, ?_, ?_, ?_⟩
      · rw [hn]; show lookupField _ "type" = _
        rw [lookupField_setField, if_neg (by decide), lookupField_setField,
          if_neg (by decide), lookupField_setField, if_pos rfl]
      · rw [hn]; show lookupField _ "properties" = _
        rw [lookupField_setField, if_neg (by decide), lookupField_setField, if_pos rfl]
      · rw [hn]; show lookupField _ "required" = _
        rw [lookupField_setField, if_pos rfl]
      · intro fl key hs h1 h2 h3
        subst hs
        rw [hn]; show lookupField _ key = _
        rw [lookupField_setField, if_neg h3, lookupField_setField, if_neg h2,
          lookupField_setField, if_neg h1]
        rfl
  · intro ht
    have hf : jsTruthy s = true := by
      cases s <;> simp [getProp, jsTruthy] at ht ⊢
    unfold normalizeSchema
    rw [if_neg (by simp [hf]), if_neg (by simp [ht])]

/-- C5 counterexample: the claim asserts type is always "object" after
normalization, but an input with a truthy type is returned unchanged —
normalizing a schema whose type is "string" keeps type "string". -/
theorem c5_counterexample :
    normalizeSchema (vObj [("type", vStr "string")]) = vObj [("type", vStr "string")] ∧
    getProp (normalizeSchema (vObj [("type", vStr "string")])) "type" = vStr "string" ∧
    ("string" : String) ≠ "object" :=
  ⟨rfl, rfl, by decide⟩

/-- C5 witness: a schema with properties but no type is backfilled to
type "object" with empty required. -/
theorem c5_normalize_schema_witness :
    getProp (normalizeSchema (vObj [("properties", vObj [("x", vObj [])])])) "type"
      = vStr "object" ∧
    getProp (normalizeSchema (vObj [("properties", vObj [("x", vObj [])])])) "required"
      = vArr [] := by
  have h := (c5_normalize_schema (vObj [("properties", vObj [("x", vObj [])])])).2.1 rfl
  refine ⟨h.1, ?_⟩
  rw [h.2.2.1]; rfl

/- ============================================================
   C4 — binding input coercion
   ============================================================ -/

theorem isNull_of_typeof_ne_object (v : JSValue) (h : typeofOf v ≠ "object") :
    isNull v = false := by
  cases v
  case vNull => exact absurd rfl h
  all_goals rfl

/-- C4: against the fetch-normalized schema of a generated binding, a
value whose typeof is not "object" is wrapped as an object under the
single required property name when the effective required list — the
schema required field, defaulted to [] when absent or falsy, exactly the
code required || [] — has exactly one entry; and in every other case —
object-typed or null input, an effective required list whose length is
not one, and in particular a schema with no required field at all (such
as type "object" with properties only) — the input is forwarded to
callTool unchanged. -/
theorem c4_input_coercion (s0 input : JSValue) :
    (∀ p, jsOr (getProp (normalizeSchema s0) "required") (vArr []) = vArr [vStr p] →
       typeofOf input ≠ "object" →
       processedInput (normalizeSchema s0) input = vObj [(p, input)]) ∧
    ((typeofOf input = "object" ∨ input = vNull) →
       processedInput (normalizeSchema s0) input = input) ∧
    (∀ l, jsOr (getProp (normalizeSchema s0) "required") (vArr []) = vArr l →
       l.length ≠ 1 → processedInput (normalizeSchema s0) input = input) ∧
    (getProp (normalizeSchema s0) "required" = vUndefined →
       processedInput (normalizeSchema s0) input = input) := by
  have htr : jsTruthy (normalizeSchema s0) = true := jsTruthy_normalizeSchema s0
  have hmany : ∀ l, jsOr (getProp (normalizeSchema s0) "required") (vArr []) = vArr l →
      l.length ≠ 1 → processedInput (normalizeSchema s0) input = input := by
    intro l hl hlen
    by_cases hc : isNull input = false ∧ typeofOf input ≠ "object" ∧
        jsTruthy (normalizeSchema s0) = true
    · unfold processedInput
      rw [if_pos hc, hl]
      show (match getProp (vArr l) "length" with
            | vNum n => if n = 1 then
                vObj [(jsToString (jsIndex (vArr l) 0), input)]
              else input
            | _ => input) = input
      have hlength : getProp (vArr l) "length" = vNum (l.length : Int) := by
        simp [getProp]
      rw [hlength]
      show (if (l.length : Int) = 1 then _ else input) = input
      rw [if_neg ?_]
      intro hcast
      exact hlen (by exact_mod_cast hcast)
    · unfold processedInput
      rw [if_neg hc]
  refine ⟨?_, ?_, hmany, ?_⟩
  · intro p hp hin
    unfold processedInput
    rw [if_pos ⟨isNull_of_typeof_ne_object input hin, hin, htr⟩, hp]
    rfl
  · intro h
    unfold processedInput
    rw [if_neg ?_]
    rintro ⟨h1, h2, _⟩
    rcases h with h | h
    · exact h2 h
    · subst h; simp [isNull] at h1
  · intro hundef
    refine hmany [] ?_ (by decide)
    rw [hundef]
    rfl

/-- C4 witness: with one required property "id" the scalar "abc" is
wrapped; with two required properties it is forwarded unchanged; and
against a schema declaring no required field at all (type "object" with
properties only, returned unchanged by normalization) it is forwarded
unchanged as well. -/
theorem c4_input_coercion_witness :
    processedInput (normalizeSchema (vObj [("type", vStr "object"),
        ("properties", vObj [("id", vObj [("type", vStr "string")])]),
        ("required", vArr [vStr "id"])])) (vStr "abc")
      = vObj [("id", vStr "abc")] ∧
    processedInput (normalizeSchema (vObj [("type", vStr "object"),
        ("required", vArr [vStr "id", vStr "name"])])) (vStr "abc")
      = vStr "abc" ∧
    processedInput (normalizeSchema (vObj [("type", vStr "object"),
        ("properties", vObj [])])) (vStr "abc")
      = vStr "abc" := by
  refine ⟨?_, ?_, ?_⟩
  · exact (c4_input_coercion (vObj [("type", vStr "object"),
      ("properties", vObj [("id", vObj [("type", vStr "string")])]),
      ("required", vArr [vStr "id"])]) (vStr "abc")).1 "id" rfl (by decide)
  · exact (c4_input_coercion (vObj [("type", vStr "object"),
      ("required", vArr [vStr "id", vStr "name"])]) (vStr "abc")).2.2.1
      [vStr "id", vStr "name"] rfl (by decide)
  · exact (c4_input_coercion (vObj [("type", vStr "object"),
      ("properties", vObj [])]) (vStr "abc")).2.2.2 rfl

/- ============================================================
   Registry lemmas
   ============================================================ -/

theorem alookup_aset_self (l : List (String × Nat)) (k : String) (v : Nat) :
    alookup (aset l k v) k = some v := by
  induction l with
  | nil => simp [aset, alookup]
  | cons p rest ih =>
    obtain ⟨k0, w⟩ := p
    by_cases h : k0 = k
    · subst h; simp [aset, alookup]
    · simp [aset, alookup, h, ih]

theorem keyCount_cons (k0 : String) (w : Nat) (rest : List (String × Nat)) (q : String) :
    keyCount ((k0, w) :: rest) q = (if k0 = q then 1 else 0) + keyCount rest q := by
  by_cases h : k0 = q
  · simp [keyCount, List.filter_cons, h]
    omega
  · simp [keyCount, List.filter_cons, h]

theorem keyCount_zero_of_alookup_none (l : List (String × Nat)) (k : String)
    (h : alookup l k = none) : keyCount l k = 0 := by
  induction l with
  | nil => rfl
  | cons p rest ih =>
    obtain ⟨k0, w⟩ := p
    by_cases h0 : k0 = k
    · subst h0; simp [alookup] at h
    · rw [keyCount_cons, if_neg h0]
      simp only [alookup, if_neg h0] at h
      simpa using ih h

theorem keyCount_aset_of_none (l : List (String × Nat)) (k : String) (v : Nat)
    (h : alookup l k = none) (q : String) :
    keyCount (aset l k v) q = keyCount l q + (if q = k then 1 else 0) := by
  induction l with
  | nil =>
    by_cases hq : q = k
    · subst hq; simp [aset, keyCount, List.filter_cons]
    · have hq2 : k ≠ q := fun hk => hq hk.symm
      simp [aset, keyCount, List.filter_cons, hq, hq2]
  | cons p rest ih =>
    obtain ⟨k0, w⟩ := p
    by_cases h0 : k0 = k
    · subst h0; simp [alookup] at h
    · simp only [alookup, if_neg h0] at h
      simp only [aset, if_neg h0]
      rw [keyCount_cons, keyCount_cons, ih h]
      omega

/- ============================================================
   C7 — connection registry reuse
   ============================================================ -/

/-- C7: getOrCreateClient returns the registered client unchanged when one
exists for the provider name; for an unregistered name with a successful
handshake it performs exactly one connection establishment, registers the
new client under the name, keeps at most one registry entry per name, and
a second sequential call returns the same client without touching the
state — establishment happens exactly once across the two calls. -/
theorem c7_registry_reuse :
    (∀ (connectOk : Bool) (st : ClientState) (name : String)
       (cfg : MCPServerConfig) (c : Nat),
       alookup st.clientRegistry name = some c →
       getOrCreateClient connectOk name cfg st = .ok (c, st)) ∧
    (∀ (st : ClientState) (name : String) (cfg : MCPServerConfig),
       alookup st.clientRegistry name = none →
       (∀ k, keyCount st.clientRegistry k ≤ 1) →
       ∃ c st1, getOrCreateClient true name cfg st = .ok (c, st1) ∧
         st1.launches = st.launches ++ [name] ∧
         alookup st1.clientRegistry name = some c ∧
         keyCount st1.clientRegistry name = 1 ∧
         (∀ k, keyCount st1.clientRegistry k ≤ 1) ∧
         (∀ connectOk2, getOrCreateClient connectOk2 name cfg st1 = .ok (c, st1))) := by
  constructor
  · intro connectOk st name cfg c h
    unfold getOrCreateClient
    rw [h]
  · intro st name cfg hnone hinv
    refine ⟨st.nextId,
      { clientRegistry := aset st.clientRegistry name st.nextId
        transportRegistry := aset st.transportRegistry name st.nextId
        nextId := st.nextId + 1
        launches := st.launches ++ [name] }, ?_, rfl, ?_, ?_, ?_, ?_⟩
    · unfold getOrCreateClient
      rw [hnone]
      rfl
    · exact alookup_aset_self _ _ _
    · show keyCount (aset st.clientRegistry name st.nextId) name = 1
      rw [keyCount_aset_of_none _ _ _ hnone, if_pos rfl,
        keyCount_zero_of_alookup_none _ _ hnone]
    · intro k
      show keyCount (aset st.clientRegistry name st.nextId) k ≤ 1
      rw [keyCount_aset_of_none _ _ _ hnone]
      by_cases hk : k = name
      · subst hk
        rw [keyCount_zero_of_alookup_none _ _ hnone, if_pos rfl]
      · rw [if_neg hk]
        simpa using hinv k
    · intro connectOk2
      unfold getOrCreateClient
      rw [show alookup (aset st.clientRegistry name st.nextId) name = some st.nextId from
        alookup_aset_self _ _ _]

/-- C7 witness: from empty registries, the first call establishes and
registers one connection and the second call reuses it untouched. -/
theorem c7_registry_reuse_witness :
    getOrCreateClient true "srv" { command := "node", args := [] } emptyClientState
      = .ok (0, demoRegisteredState) ∧
    getOrCreateClient true "srv" { command := "node", args := [] } demoRegisteredState
      = .ok (0, demoRegisteredState) := by
  obtain ⟨c, st1, h1, h2, h3, h4, h5, h6⟩ :=
    c7_registry_reuse.2 emptyClientState "srv" { command := "node", args := [] }
      rfl (by intro k; simp [emptyClientState, keyCount])
  have he : getOrCreateClient true "srv" { command := "node", args := [] } emptyClientState
      = .ok (0, demoRegisteredState) := rfl
  rw [he] at h1
  injection h1 with hp
  injection hp with hc hst
  subst hc
  subst hst
  exact ⟨he, h6 true⟩

/- ============================================================
   C2 — closeAllConnections
   ============================================================ -/

theorem aremove_append (key : String) (x : Nat) (kept rest : List (String × Nat))
    (h : key ∉ kept.map Prod.fst) :
    aremove (kept ++ (key, x) :: rest) key = kept ++ rest := by
  induction kept with
  | nil => simp [aremove]
  | cons p tl ih =>
    obtain ⟨k0, w⟩ := p
    have hne : k0 ≠ key := by
      intro hk; exact h (by simp [hk])
    have h2 : key ∉ tl.map Prod.fst := by
      intro hm; exact h (by simp [hm])
    simp only [List.cons_append, aremove, if_neg hne]
    exact congrArg (List.cons (k0, w)) (ih h2)

theorem closeFold_attempted (closeOk : Nat → Bool) (entries : List (String × Nat)) :
    ∀ (st : ClientState) (acc : List Nat),
      (entries.foldl (closeStep closeOk) (st, acc)).2 = acc ++ entries.map Prod.snd := by
  induction entries with
  | nil => intro st acc; simp
  | cons e rest ih =>
    intro st acc
    by_cases h : closeOk e.2
    · simp only [List.foldl_cons, closeStep, h, if_pos]
      rw [ih]
      simp
    · simp only [List.foldl_cons, closeStep, h, if_neg]
      rw [ih]
      simp

theorem closeFold_transport (closeOk : Nat → Bool) (entries : List (String × Nat)) :
    ∀ (kept : List (String × Nat)) (st : ClientState) (acc : List Nat),
      st.transportRegistry = kept ++ entries →
      ((kept ++ entries).map Prod.fst).Nodup →
      ((entries.foldl (closeStep closeOk) (st, acc)).1).transportRegistry
        = kept ++ entries.filter (fun e => !closeOk e.2) := by
  induction entries with
  | nil => intro kept st acc hreg _; simpa using hreg
  | cons e rest ih =>
    intro kept st acc hreg hnd
    obtain ⟨key, x⟩ := e
    have hkey : key ∉ kept.map Prod.fst := by
      have := hnd
      rw [List.map_append] at this
      rcases List.nodup_append.mp this with ⟨_, _, hdisj⟩
      intro hm
      exact hdisj hm (by simp)
    by_cases h : closeOk x
    · have hstep : closeStep closeOk (st, acc) (key, x)
          = (ClientState.mk (aremove st.clientRegistry key)
              (aremove st.transportRegistry key) st.nextId st.launches, acc ++ [x]) := by
        simp [closeStep, h]
      rw [List.foldl_cons, hstep]
      have hrem : aremove st.transportRegistry key = kept ++ rest := by
        rw [hreg]; exact aremove_append key x kept rest hkey
      have hnd2 : ((kept ++ rest).map Prod.fst).Nodup := by
        refine List.Nodup.sublist ?_ hnd
        refine List.Sublist.map Prod.fst ?_
        exact List.Sublist.append_left (List.sublist_cons_self _ _) kept
      have := ih kept (ClientState.mk (aremove st.clientRegistry key)
          (aremove st.transportRegistry key) st.nextId st.launches)
        (acc ++ [x]) (by simpa using hrem) hnd2
      rw [this]
      simp [List.filter_cons, h]
    · have hstep : closeStep closeOk (st, acc) (key, x) = (st, acc ++ [x]) := by
        simp [closeStep, h]
      rw [List.foldl_cons, hstep]
      have := ih (kept ++ [(key, x)]) st (acc ++ [x]) (by simpa using hreg)
        (by simpa using hnd)
      rw [this]
      simp [List.filter_cons, h]

theorem closeFold_client_empty (closeOk : Nat → Bool) (entries : List (String × Nat)) :
    ∀ (st : ClientState) (acc : List Nat),
      (∀ e ∈ entries, closeOk e.2 = true) →
      st.clientRegistry.map Prod.fst = entries.map Prod.fst →
      ((entries.foldl (closeStep closeOk) (st, acc)).1).clientRegistry = [] := by
  induction entries with
  | nil =>
    intro st acc _ hmap
    simpa using List.map_eq_nil_iff.mp hmap
  | cons e rest ih =>
    intro st acc hall hmap
    obtain ⟨key, x⟩ := e
    have h : closeOk x = true := hall (key, x) (by simp)
    rcases hcl : st.clientRegistry with _ | ⟨⟨k0, c0⟩, more⟩
    · rw [hcl] at hmap; simp at hmap
    · rw [hcl] at hmap
      simp only [List.map_cons] at hmap
      injection hmap with hk0 hmore
      have hrem : aremove st.clientRegistry key = more := by
        rw [hcl, hk0]; simp [aremove]
      have hstep : closeStep closeOk (st, acc) (key, x)
          = (ClientState.mk (aremove st.clientRegistry key)
              (aremove st.transportRegistry key) st.nextId st.launches, acc ++ [x]) := by
        simp [closeStep, h]
      rw [List.foldl_cons, hstep]
      exact ih (ClientState.mk (aremove st.clientRegistry key)
          (aremove st.transportRegistry key) st.nextId st.launches)
        (acc ++ [x]) (fun e he => hall e (by simp [he]))
        (by simpa [hrem] using hmore)

/-- C2 (amended): closeAllConnections attempts to close every registered
transport in order — a close that raises is caught and does not prevent
the remaining closes — but an entry is deleted from the registry only when
its close succeeds, and is retained when the close raises; the call itself
never raises; with an empty registry it is a no-op; when every close
succeeds the transport registry (and, when its keys mirror the transport
keys, the client registry) is left empty, and a second consecutive call is
a no-op on the empty registry. -/
theorem c2_close_best_effort (closeOk : Nat → Bool) (st : ClientState)
    (hnd : (st.transportRegistry.map Prod.fst).Nodup) :
    (closeAllConnections closeOk st).2 = st.transportRegistry.map Prod.snd ∧
    ((closeAllConnections closeOk st).1).transportRegistry
      = st.transportRegistry.filter (fun e => !closeOk e.2) ∧
    (st.transportRegistry = [] → closeAllConnections closeOk st = (st, [])) ∧
    ((∀ e ∈ st.transportRegistry, closeOk e.2 = true) →
      ((closeAllConnections closeOk st).1).transportRegistry = [] ∧
      (st.clientRegistry.map Prod.fst = st.transportRegistry.map Prod.fst →
        ((closeAllConnections closeOk st).1).clientRegistry = []) ∧
      closeAllConnections closeOk ((closeAllConnections closeOk st).1)
        = ((closeAllConnections closeOk st).1, [])) := by
  have htr : ((closeAllConnections closeOk st).1).transportRegistry
      = st.transportRegistry.filter (fun e => !closeOk e.2) :=
    closeFold_transport closeOk st.transportRegistry [] st [] rfl hnd
  refine ⟨closeFold_attempted closeOk st.transportRegistry st [], htr, ?_, ?_⟩
  · intro hempty
    unfold closeAllConnections
    rw [hempty]
    rfl
  · intro hall
    have hnil : ((closeAllConnections closeOk st).1).transportRegistry = [] := by
      rw [htr]
      exact List.filter_eq_nil_iff.mpr (fun e he => by simp [hall e he])
    refine ⟨hnil, ?_, ?_⟩
    · intro hmap
      exact closeFold_client_empty closeOk st.transportRegistry st [] hall hmap
    · have hu : closeAllConnections closeOk ((closeAllConnections closeOk st).1)
          = (((closeAllConnections closeOk st).1).transportRegistry).foldl
              (closeStep closeOk) ((closeAllConnections closeOk st).1, []) := rfl
      rw [hu, hnil]
      rfl

/-- C2 counterexample: with one registered transport whose close raises,
closeAllConnections leaves the entry registered — the registry is neither
cleared of the entry nor empty afterwards, against the claim. -/
theorem c2_counterexample :
    ((closeAllConnections (fun _ => false)
        { clientRegistry := [("srv", 0)], transportRegistry := [("srv", 0)],
          nextId := 1, launches := ["srv"] }).1).transportRegistry = [("srv", 0)] ∧
    ([("srv", 0)] : List (String × Nat)) ≠ [] :=
  ⟨rfl, by decide⟩

/-- C2 witness: on a registry with one transport whose close succeeds, the
close is attempted and both registries end empty; a repeat call is a
no-op. -/
theorem c2_close_best_effort_witness :
    (closeAllConnections (fun _ => true) demoRegisteredState).2 = [0] ∧
    ((closeAllConnections (fun _ => true) demoRegisteredState).1).transportRegistry = [] ∧
    ((closeAllConnections (fun _ => true) demoRegisteredState).1).clientRegistry = [] := by
  have h := c2_close_best_effort (fun _ => true) demoRegisteredState
    (by simp [demoRegisteredState])
  have h4 := h.2.2.2 (fun e _ => rfl)
  exact ⟨h.1, h4.1, h4.2.1 rfl⟩

/- ============================================================
   C6 — callMCPTool failure conditions
   ============================================================ -/

theorem callMCPTool_split_two (w : MCPWorld) (toolName : String) (input : JSValue)
    (st : ClientState) (a b : String) (hsp : jsSplitDunder toolName = [a, b]) :
    callMCPTool w toolName input st = callMCPToolBody w a b input st := by
  unfold callMCPTool
  rw [hsp]

theorem callMCPToolBody_ne_invalid (w : MCPWorld) (a b : String) (input : JSValue)
    (st : ClientState) (tn : String) :
    callMCPToolBody w a b input st ≠ .error (.invalidIdentifier tn) := by
  unfold callMCPToolBody
  rcases henv : w.env ("MCP_SERVER_" ++ jsToUpper a) with _ | raw
  · simp
  · by_cases hraw : raw = ""
    · simp [hraw]
    · simp only [if_neg hraw]
      rcases hp : w.parseConfig raw with _ | cfg
      · simp
      · rcases hg : getOrCreateClient w.connectOk a cfg st with e | ⟨c, st1⟩
        · simp [hg]
        · rcases hr : w.remote a b input with msg | result <;> simp [hg, hr]

/-- C6 (amended): callMCPTool raises InvalidIdentifier exactly when the
combined identifier does not split on "__" into exactly two parts — the
parts are not required to be non-empty; with exactly two parts whose first
names a provider with a missing (or empty) configuration variable, it
raises ConfigurationNotFound carrying that provider name; and when the
configuration parses, the handshake succeeds and the remote call answers,
the content field of the remote result is returned unmodified. -/
theorem c6_call_tool_errors (w : MCPWorld) (toolName : String) (input : JSValue)
    (st : ClientState) :
    ((∃ tn, callMCPTool w toolName input st = .error (.invalidIdentifier tn)) ↔
      (jsSplitDunder toolName).length ≠ 2) ∧
    (∀ s t, jsSplitDunder toolName = [s, t] →
      envMissing (w.env ("MCP_SERVER_" ++ jsToUpper s)) = true →
      callMCPTool w toolName input st = .error (.configNotFound s)) ∧
    (∀ s t raw cfg c st1 result, jsSplitDunder toolName = [s, t] →
      w.env ("MCP_SERVER_" ++ jsToUpper s) = some raw → raw ≠ "" →
      w.parseConfig raw = some cfg →
      getOrCreateClient w.connectOk s cfg st = .ok (c, st1) →
      w.remote s t input = .ok result →
      callMCPTool w toolName input st = .ok (getProp result "content", st1)) := by
  refine ⟨?_, ?_, ?_⟩
  · constructor
    · rintro ⟨tn, htn⟩ hlen
      rcases hsp : jsSplitDunder toolName with _ | ⟨a, _ | ⟨b, _ | _⟩⟩
      · rw [hsp] at hlen; simp at hlen
      · rw [hsp] at hlen; simp at hlen
      · rw [callMCPTool_split_two w toolName input st a b hsp] at htn
        exact callMCPToolBody_ne_invalid w a b input st tn htn
      · rw [hsp] at hlen; simp at hlen
    · intro hlen
      refine ⟨toolName, ?_⟩
      unfold callMCPTool
      rcases hsp : jsSplitDunder toolName with _ | ⟨a, _ | ⟨b, _ | ⟨c, l⟩⟩⟩
      · rfl
      · rfl
      · rw [hsp] at hlen; simp at hlen
      · rfl
  · intro s t hsp henv
    rw [callMCPTool_split_two w toolName input st s t hsp]
    unfold callMCPToolBody
    rcases he : w.env ("MCP_SERVER_" ++ jsToUpper s) with _ | raw
    · rfl
    · rw [he] at henv
      simp only [envMissing, decide_eq_true_eq] at henv
      subst henv
      rfl
  · intro s t raw cfg c st1 result hsp henv hraw hp hg hr
    rw [callMCPTool_split_two w toolName input st s t hsp]
    unfold callMCPToolBody
    rw [henv]
    simp [hraw, hp, hg, hr]

/-- C6 counterexample: the identifier "__tool" splits into two parts, the
first of which is empty; against the claim the code does not raise
InvalidIdentifier for it but proceeds to configuration lookup and fails
with ConfigurationNotFound naming the empty provider. -/
theorem c6_counterexample :
    jsSplitDunder "__tool" = ["", "tool"] ∧
    callMCPTool noConfigWorld "__tool" vNull emptyClientState
      = .error (.configNotFound "") ∧
    MCPError.configNotFound "" ≠ MCPError.invalidIdentifier "__tool" :=
  ⟨rfl, rfl, by decide⟩

/-- C6 witness: a malformed identifier raises InvalidIdentifier, a
well-formed identifier without configuration raises ConfigurationNotFound
naming the provider, and a fully configured call returns the remote
content payload. -/
theorem c6_call_tool_errors_witness :
    (∃ tn, callMCPTool demoWorld "lonetoken" vNull emptyClientState
      = .error (.invalidIdentifier tn)) ∧
    callMCPTool demoWorld "other__echo" vNull emptyClientState
      = .error (.configNotFound "other") ∧
    callMCPTool demoWorld "srv__echo" vNull emptyClientState
      = .ok (vArr [vStr "hi"], demoRegisteredState) := by
  refine ⟨?_, ?_, ?_⟩
  · exact (c6_call_tool_errors demoWorld "lonetoken" vNull emptyClientState).1.mpr
      (by decide)
  · exact (c6_call_tool_errors demoWorld "other__echo" vNull emptyClientState).2.1
      "other" "echo" (by decide) (by decide)
  · exact (c6_call_tool_errors demoWorld "srv__echo" vNull emptyClientState).2.2
      "srv" "echo" "cfgjson" { command := "node", args := ["server.js"] } 0
      demoRegisteredState (vObj [("content", vArr [vStr "hi"])])
      (by decide) (by decide) (by decide) rfl rfl rfl

/- ============================================================
   C8 — sequential fetch with guaranteed close
   ============================================================ -/

theorem fetchOne_ok (n : String) (b : ProviderBehavior) (h : provOk b = true) :
    fetchOne n b = (.ok (((rawToolsOf b).getD []).map normalizeTool),
      [.connectAttempt n, .closeAttempt n]) := by
  unfold provOk at h
  simp only [Bool.and_eq_true] at h
  obtain ⟨⟨hc, hs⟩, hcl⟩ := h
  unfold fetchOne
  rw [hc]
  rcases hraw : rawToolsOf b with _ | ts
  · rw [hraw] at hs; simp at hs
  · simp [hcl]

theorem fetchOne_err (n : String) (b : ProviderBehavior) (h : provOk b = false) :
    ∃ e, (fetchOne n b).1 = Except.error e := by
  unfold provOk at h
  unfold fetchOne
  rcases hc : b.connectOk
  · exact ⟨_, rfl⟩
  · rcases hraw : rawToolsOf b with _ | ts
    · exact ⟨_, rfl⟩
    · rcases hcl : b.closeOk
      · simp [hcl]
      · rw [hc, hraw, hcl] at h; simp at h

theorem fetchOne_events (n : String) (b : ProviderBehavior) :
    (fetchOne n b).2 = [FetchEvent.connectAttempt n, FetchEvent.closeAttempt n] ∨
    (fetchOne n b).2 = [FetchEvent.connectAttempt n, FetchEvent.closeAttempt n,
      FetchEvent.closeAttempt n] := by
  unfold fetchOne
  rcases b.connectOk
  · exact Or.inl rfl
  · rcases rawToolsOf b with _ | ts
    · exact Or.inl rfl
    · rcases b.closeOk
      · exact Or.inr rfl
      · exact Or.inl rfl

theorem fetchOne_close_mem (n : String) (b : ProviderBehavior) :
    FetchEvent.closeAttempt n ∈ (fetchOne n b).2 := by
  rcases fetchOne_events n b with h | h <;> rw [h] <;> simp

theorem fetchOne_server_eq (n : String) (b : ProviderBehavior) (ev : FetchEvent)
    (h : ev ∈ (fetchOne n b).2) : evServer ev = n := by
  rcases fetchOne_events n b with he | he
  · rw [he] at h
    simp only [List.mem_cons, List.not_mem_nil, or_false] at h
    rcases h with rfl | rfl <;> rfl
  · rw [he] at h
    simp only [List.mem_cons, List.not_mem_nil, or_false] at h
    rcases h with rfl | rfl | rfl <;> rfl

theorem evChain_server_mem (ps : List (String × ProviderBehavior)) (ev : FetchEvent)
    (h : ev ∈ evChain ps) : evServer ev ∈ ps.map Prod.fst := by
  induction ps with
  | nil => simp [evChain] at h
  | cons p rest ih =>
    simp only [evChain, List.foldr_cons, List.mem_cons] at h
    rcases h with rfl | rfl | h
    · simp [evServer]
    · simp [evServer]
    · simp only [List.map_cons, List.mem_cons]
      exact Or.inr (ih h)

theorem fetchToolSchemas_cons (n : String) (b : ProviderBehavior)
    (rest : List (String × ProviderBehavior)) :
    fetchToolSchemas ((n, b) :: rest) =
      match fetchOne n b with
      | (.ok ts, ev) =>
        match fetchToolSchemas rest with
        | (.ok l, evs) => (.ok ((n, ts) :: l), ev ++ evs)
        | (.error e, evs) => (.error e, ev ++ evs)
      | (.error e, ev) => (.error e, ev) := rfl

theorem fetch_all_ok (ps : List (String × ProviderBehavior))
    (h : ∀ p ∈ ps, provOk p.2 = true) :
    fetchToolSchemas ps =
      (.ok (ps.map fun p => (p.1, ((rawToolsOf p.2).getD []).map normalizeTool)),
       evChain ps) := by
  induction ps with
  | nil => rfl
  | cons p rest ih =>
    obtain ⟨n, b⟩ := p
    have hok := fetchOne_ok n b (h (n, b) (by simp))
    have hrec := ih (fun q hq => h q (by simp [hq]))
    rw [fetchToolSchemas_cons, hok, hrec]
    simp [evChain]

theorem fetch_first_fail (pre : List (String × ProviderBehavior)) (n : String)
    (b : ProviderBehavior) (post : List (String × ProviderBehavior))
    (hpre : ∀ p ∈ pre, provOk p.2 = true) (hb : provOk b = false) :
    ∃ e, (fetchOne n b).1 = Except.error e ∧
      (fetchToolSchemas (pre ++ (n, b) :: post)).1 = Except.error e ∧
      (fetchToolSchemas (pre ++ (n, b) :: post)).2 = evChain pre ++ (fetchOne n b).2 := by
  obtain ⟨e, he⟩ := fetchOne_err n b hb
  refine ⟨e, he, ?_⟩
  induction pre with
  | nil =>
    rcases hfo : fetchOne n b with ⟨e1 | ts1, ev1⟩
    · rw [hfo] at he
      simp only [Except.error.injEq] at he
      subst he
      rw [show (([] : List (String × ProviderBehavior)) ++ (n, b) :: post)
          = (n, b) :: post from rfl,
        fetchToolSchemas_cons, hfo]
      exact ⟨rfl, by simp [evChain]⟩
    · rw [hfo] at he
      simp at he
  | cons p pre ih =>
    obtain ⟨n0, b0⟩ := p
    have hok := fetchOne_ok n0 b0 (hpre (n0, b0) (by simp))
    obtain ⟨ih1, ih2⟩ := ih (fun q hq => hpre q (by simp [hq]))
    rcases hrec : fetchToolSchemas (pre ++ (n, b) :: post) with ⟨r2, ev2⟩
    rw [hrec] at ih1 ih2
    have ih1e : r2 = Except.error e := ih1
    have ih2e : ev2 = evChain pre ++ (fetchOne n b).2 := ih2
    subst ih1e
    rw [show (((n0, b0) :: pre) ++ (n, b) :: post) = (n0, b0) :: (pre ++ (n, b) :: post)
        from rfl,
      fetchToolSchemas_cons, hok, hrec]
    refine ⟨rfl, ?_⟩
    show [FetchEvent.connectAttempt n0, FetchEvent.closeAttempt n0] ++ ev2
      = evChain ((n0, b0) :: pre) ++ (fetchOne n b).2
    rw [ih2e]
    simp [evChain]

theorem fetch_close_per_connect (ps : List (String × ProviderBehavior)) (s : String)
    (h : FetchEvent.connectAttempt s ∈ (fetchToolSchemas ps).2) :
    FetchEvent.closeAttempt s ∈ (fetchToolSchemas ps).2 := by
  induction ps with
  | nil => simp [fetchToolSchemas] at h
  | cons p rest ih =>
    obtain ⟨n, b⟩ := p
    rcases hfo : fetchOne n b with ⟨r1, ev1⟩
    have hmem1 : FetchEvent.connectAttempt s ∈ ev1 → FetchEvent.closeAttempt s ∈ ev1 := by
      intro hm
      have hs : s = n := by
        have := fetchOne_server_eq n b (FetchEvent.connectAttempt s) (by rw [hfo]; exact hm)
        simpa [evServer] using this
      subst hs
      have := fetchOne_close_mem s b
      rwa [hfo] at this
    rcases r1 with e | ts
    · rw [show fetchToolSchemas ((n, b) :: rest) = (.error e, ev1) by
        rw [fetchToolSchemas_cons, hfo]] at h ⊢
      exact hmem1 h
    · rcases hrec : fetchToolSchemas rest with ⟨r2, ev2⟩
      have hsh : (fetchToolSchemas ((n, b) :: rest)).2 = ev1 ++ ev2 := by
        rw [fetchToolSchemas_cons, hfo, hrec]
        rcases r2 with e2 | l2 <;> rfl
      rw [hsh] at h ⊢
      rcases List.mem_append.mp h with hm | hm
      · exact List.mem_append.mpr (Or.inl (hmem1 hm))
      · have := ih (by rw [hrec]; exact hm)
        rw [hrec] at this
        exact List.mem_append.mpr (Or.inr this)

/-- C8: fetchToolSchemas processes the configured providers strictly
sequentially in configuration order: when every provider succeeds the
outcome lists each provider with its normalized tools in order; the first
failing provider makes its own error the overall outcome, the remaining
providers contribute no connection activity at all, and every provider
that was connected gets its transport close attempted — on success and on
failure alike — before the fetcher rethrows or moves on. -/
theorem c8_fetch_sequential :
    (∀ ps : List (String × ProviderBehavior),
      (∀ p ∈ ps, provOk p.2 = true) →
      fetchToolSchemas ps =
        (.ok (ps.map fun p => (p.1, ((rawToolsOf p.2).getD []).map normalizeTool)),
         evChain ps)) ∧
    (∀ (pre : List (String × ProviderBehavior)) (n : String) (b : ProviderBehavior)
       (post : List (String × ProviderBehavior)),
      (∀ p ∈ pre, provOk p.2 = true) → provOk b = false →
      (∃ e, (fetchOne n b).1 = Except.error e ∧
        (fetchToolSchemas (pre ++ (n, b) :: post)).1 = Except.error e) ∧
      (fetchToolSchemas (pre ++ (n, b) :: post)).2 = evChain pre ++ (fetchOne n b).2 ∧
      (∀ ev ∈ (fetchToolSchemas (pre ++ (n, b) :: post)).2,
        evServer ev ∈ pre.map Prod.fst ∨ evServer ev = n)) ∧
    (∀ ps s, FetchEvent.connectAttempt s ∈ (fetchToolSchemas ps).2 →
      FetchEvent.closeAttempt s ∈ (fetchToolSchemas ps).2) := by
  refine ⟨fetch_all_ok, ?_, fetch_close_per_connect⟩
  intro pre n b post hpre hb
  obtain ⟨e, he, h1, h2⟩ := fetch_first_fail pre n b post hpre hb
  refine ⟨⟨e, he, h1⟩, h2, ?_⟩
  intro ev hm
  rw [h2] at hm
  rcases List.mem_append.mp hm with hm | hm
  · exact Or.inl (evChain_server_mem pre ev hm)
  · exact Or.inr (fetchOne_server_eq n b ev hm)

/-- C8 witness: a clean single-provider fetch yields its normalized tools
with connect and close in order, and with a failing second provider the
overall fetch fails with that provider's error while a configured third
provider is never reached. -/
theorem c8_fetch_sequential_witness :
    fetchToolSchemas [("a", okProvider)] =
      (.ok ([("a", okProvider)].map fun p =>
        (p.1, ((rawToolsOf p.2).getD []).map normalizeTool)),
       evChain [("a", okProvider)]) ∧
    (∃ e, (fetchOne "b" badProvider).1 = Except.error e ∧
      (fetchToolSchemas ([("a", okProvider)] ++ ("b", badProvider) :: [("c", okProvider)])).1
        = Except.error e) := by
  refine ⟨c8_fetch_sequential.1 [("a", okProvider)] ?_, ?_⟩
  · intro p hp
    simp only [List.mem_singleton] at hp
    subst hp
    rfl
  · exact (c8_fetch_sequential.2.1 [("a", okProvider)] "b" badProvider [("c", okProvider)]
      (by intro p hp; simp only [List.mem_singleton] at hp; subst hp; rfl) rfl).1

/- ============================================================
   C1 — guaranteed cleanup (violated), C3 — result envelope,
   C9 — empty argument, C10 — log capture
   ============================================================ -/

/-- C1: the claim says closeAllConnections always runs before the process
terminates, but both executor paths terminate through process.exit inside
the try/catch, which in Node skips the pending finally block and the
beforeExit hook — no trace of runExecutor ever contains a closeAll event;
in particular the successful run of the code fragment "return 1+1" exits
with code 0 without any connection teardown. -/
theorem c1_cleanup_skipped :
    (∀ (argv2 : Option String) (run : HandlerRun),
      closeAllCount (runExecutor argv2 run) = 0) ∧
    closeAllCount (runExecutor (some "return 1+1")
      { calls := [], outcome := .ok (vNum 2) }) = 0 ∧
    (runExecutor (some "return 1+1") { calls := [], outcome := .ok (vNum 2) }).getLast?
      = some (ExEvent.exitProc 0) := by
  refine ⟨?_, rfl, rfl⟩
  intro argv2 run
  rcases argv2 with _ | code
  · rfl
  · by_cases h : code = ""
    · subst h; rfl
    · obtain ⟨calls, outcome⟩ := run
      rcases outcome with e | r <;>
        simp [runExecutor, h, closeAllCount, List.filter_cons]

/-- C3 (amended): with a truthy code argument, a run writes exactly one
result envelope to standard output; its exitCode is 1 exactly when the
error field is present, the result is null whenever exitCode is 1, the
process exits with the envelope exitCode, and when the code fragment
raises, the error field holds the message string of the raised condition —
which is empty exactly when that message is empty, rather than always
non-empty. -/
theorem c3_envelope_invariants (code : String) (run : HandlerRun) (hc : code ≠ "") :
    (envelopes (runExecutor (some code) run)).length = 1 ∧
    (∀ r, r ∈ envelopes (runExecutor (some code) run) →
      (r.exitCode = 1 ↔ r.error.isSome = true) ∧
      (r.exitCode = 1 → r.result = vNull) ∧
      (runExecutor (some code) run).getLast? = some (ExEvent.exitProc r.exitCode) ∧
      (∀ e, run.outcome = .error e → r.error = some (jsErrorMessage e))) := by
  obtain ⟨calls, outcome⟩ := run
  rcases outcome with e | v
  · constructor
    · simp [runExecutor, hc, envelopes]
    · intro r hr
      simp only [runExecutor, if_neg hc, envelopes, List.filterMap_cons] at hr
      simp only [List.filterMap_nil] at hr
      simp only [List.mem_singleton] at hr
      subst hr
      refine ⟨by simp, fun _ => rfl, by simp [runExecutor, hc], ?_⟩
      intro e2 he2
      simp only [Except.error.injEq] at he2
      subst he2
      rfl
  · constructor
    · simp [runExecutor, hc, envelopes]
    · intro r hr
      simp only [runExecutor, if_neg hc, envelopes, List.filterMap_cons] at hr
      simp only [List.filterMap_nil] at hr
      simp only [List.mem_singleton] at hr
      subst hr
      refine ⟨by simp, by simp, by simp [runExecutor, hc], ?_⟩
      intro e2 he2
      cases he2

/-- C3 counterexample: a code fragment raising an Error whose message is
the empty string produces an envelope whose error field is the empty
string — present, but not a non-empty string as the claim requires. -/
theorem c3_counterexample :
    envelopes (runExecutor (some "throw new Error(\"\")")
        { calls := [], outcome := .error (.errObj "") })
      = [{ result := vNull, logs := [], exitCode := 1, error := some "" }] ∧
    ("" : String).length = 0 :=
  ⟨rfl, rfl⟩

/-- C3 witness: the successful run of "return 1+1" emits exactly one
envelope. -/
theorem c3_envelope_invariants_witness :
    (envelopes (runExecutor (some "return 1+1")
      { calls := [], outcome := .ok (vNum 2) })).length = 1 :=
  (c3_envelope_invariants "return 1+1" { calls := [], outcome := .ok (vNum 2) }
    (by decide)).1

/-- C9: an empty-string code argument is falsy, so the executor takes
exactly the missing-argument path: it prints the usage message to the
diagnostic channel and exits with code 1, with no capture session, no
handler invocation and no connection activity beforehand. -/
theorem c9_empty_arg_usage (run : HandlerRun) :
    runExecutor (some "") run = runExecutor none run ∧
    runExecutor (some "") run
      = [ExEvent.stderrLine usageMessage, ExEvent.exitProc 1] :=
  ⟨rfl, rfl⟩

theorem runCapture_eq_map (calls : List ConsoleCall) :
    runCapture calls = calls.map captureLine := by
  suffices h : ∀ acc, calls.foldl (fun buf c => buf ++ [captureLine c]) acc
      = acc ++ calls.map captureLine by
    simpa using h []
  induction calls with
  | nil => intro acc; simp
  | cons c cs ih =>
    intro acc
    rw [List.foldl_cons, ih, List.map_cons]
    simp

/-- C10: a capture session appends exactly one line per console call, in
call order; error lines carry the "[ERROR] " tag, warn lines the "[WARN] "
tag, log lines no tag, and within every line each argument with typeof
"object" is rendered by JSON.stringify while any other argument is
rendered by String, joined by single spaces. -/
theorem c10_log_capture (calls : List ConsoleCall) :
    (runCapture calls).length = calls.length ∧
    (∀ i (h1 : i < (runCapture calls).length) (h2 : i < calls.length),
      (runCapture calls).get ⟨i, h1⟩ = captureLine (calls.get ⟨i, h2⟩)) ∧
    (∀ args, captureLine (ConsoleCall.log args) = renderArgs args) ∧
    (∀ args, captureLine (ConsoleCall.error args) = "[ERROR] " ++ renderArgs args) ∧
    (∀ args, captureLine (ConsoleCall.warn args) = "[WARN] " ++ renderArgs args) ∧
    (∀ v, typeofOf v = "object" → renderArg v = jsonStringify v) ∧
    (∀ v, typeofOf v ≠ "object" → renderArg v = jsToString v) := by
  refine ⟨by rw [runCapture_eq_map]; simp, ?_, fun args => rfl, fun args => rfl,
    fun args => rfl, ?_, ?_⟩
  · intro i h1 h2
    have h3 : i < (calls.map captureLine).length := by simpa using h2
    have := List.get_of_eq (runCapture_eq_map calls) ⟨i, h1⟩
    rw [this]
    simp [List.getElem_map]
  · intro v hv
    unfold renderArg
    rw [if_pos hv]
  · intro v hv
    unfold renderArg
    rw [if_neg hv]

/-- C10 witness: a three-call session produces three lines in order, with
the object argument JSON-rendered and the channel tags in place. -/
theorem c10_log_capture_witness :
    (runCapture sampleCalls).length = sampleCalls.length ∧
    (runCapture sampleCalls).get ⟨0, by decide⟩ = captureLine (sampleCalls.get ⟨0, by decide⟩) := by
  refine ⟨(c10_log_capture sampleCalls).1, ?_⟩
  exact (c10_log_capture sampleCalls).2.1 0 (by decide) (by decide)

end Sandbox
